import Mathlib

/-!
Shallow embedding of the endless-ping monitoring engine
(src/core/statistics.py, src/core/network.py, src/utils/ping.py, main.py)
with proofs about its statistics, history and lifecycle behaviour.

Python floats are modelled by exact rationals; `None` becomes `Option`;
float infinity (used only as the initial hop `min`) becomes `⊤` in
`WithTop ℚ`.
-/

namespace EndlessPing

/-- One history entry — the dict appended to `self.history[hop]` by
`ping_and_process` and consumed by `calculate_statistics`: timestamp,
latency (`None` for failures), success flag, error_type string. -/
structure DataPoint where
  timestamp : Nat
  latency : Option ℚ
  success : Bool
  errorType : Option String
deriving DecidableEq

/-- The list comprehension at the top of `calculate_statistics`: the
latency of each point whose success flag is true and whose latency is
not None. -/
def successLatencies (data_points : List DataPoint) : List ℚ :=
  data_points.filterMap (fun p => if p.success then p.latency else none)

/-- The dict returned by `calculate_statistics`. Python returns
`jitter = statistics.stdev(latencies)`, the square root of the sample
variance; the model stores the exact rational square `jitterSq`, so the
code's jitter is `√jitterSq` and in particular jitter = 0 iff
`jitterSq = 0`. -/
structure StatsResult where
  avg : ℚ
  loss : ℚ
  jitterSq : ℚ
deriving DecidableEq

/-- The square of Python's `statistics.stdev`: sum of squared deviations
from the exact mean, divided by n − 1 (`statistics` does this arithmetic
exactly over fractions before the final square root). Only evaluated by
the code when the list has at least two elements. -/
def stdevSq (xs : List ℚ) : ℚ :=
  (xs.map (fun x => (x - xs.sum / (xs.length : ℚ)) ^ 2)).sum / ((xs.length : ℚ) - 1)

/-- Shallow embedding of `calculate_statistics` (src/core/statistics.py).
The `try/except` around `statistics.stdev` is dead under exact rational
arithmetic: with at least two data points `stdev` cannot raise, so the
`except` branch is unreachable in the model. -/
def calculate_statistics (data_points : List DataPoint) : StatsResult :=
  let latencies := successLatencies data_points
  let total_points := data_points.length
  let successful_points := latencies.length
  let loss_percentage : ℚ :=
    if total_points = 0 then 0
    else (1 - (successful_points : ℚ) / (total_points : ℚ)) * 100
  let avg_latency : ℚ :=
    if 0 < successful_points then latencies.sum / (successful_points : ℚ) else 0
  let jitter : ℚ := if 1 < successful_points then stdevSq latencies else 0
  { avg := avg_latency, loss := loss_percentage, jitterSq := jitter }

theorem successLatencies_of_no_success (dps : List DataPoint)
    (h : ∀ p ∈ dps, p.success = false) : successLatencies dps = [] := by
  rw [successLatencies, List.filterMap_eq_nil_iff]
  intro p hp
  simp [h p hp]

theorem calculate_statistics_no_success (dps : List DataPoint)
    (h : ∀ p ∈ dps, p.success = false) (hne : dps ≠ []) :
    calculate_statistics dps = { avg := 0, loss := 100, jitterSq := 0 } := by
  have hsl := successLatencies_of_no_success dps h
  have hlen : dps.length ≠ 0 := Nat.pos_iff_ne_zero.mp (List.length_pos.mpr hne)
  simp [calculate_statistics, hsl, hlen]

theorem calculate_statistics_nil :
    calculate_statistics [] = { avg := 0, loss := 0, jitterSq := 0 } := by
  simp [calculate_statistics, successLatencies]

/-- The result dict of `ping_host` (src/utils/ping.py): success flag,
latency in ms (0 unless successful), error message and error_type
string, both `None` on success. -/
structure PingResult where
  success : Bool
  latency : ℚ
  error : Option String
  errorType : Option String
deriving DecidableEq

/-- What happens at the ICMP layer once `ping_host` has resolved the
target and passed the privilege check: either the send/receive loop
completes, yielding per-ping reply latencies in ms (`none` = no reply
within the timeout), or one of the exceptions the code catches is
raised. -/
inductive IcmpOutcome where
  | exchanges (perPing : List (Option ℚ))
  | permissionError (msg : String)
  | noRouteSockError
  | permDeniedSockError
  | otherSockError (msg : String)
deriving DecidableEq

/-- The environment a `ping_host` call runs against: the outcome of
`socket.gethostbyname` (`none` = `socket.gaierror`), the platform and
effective uid consulted by the privilege check, and the ICMP-layer
behaviour. -/
structure PingEnv where
  resolved : Option String
  isWindows : Bool
  euid : Nat
  icmp : IcmpOutcome
deriving DecidableEq

/-- Shallow embedding of `ping_host` (src/utils/ping.py). Mirrors the
code's branches in order: name resolution (gaierror → error_type
"unknown"), the Unix non-root check (→ "permission"), then the ICMP
exchange: replies collected → success with the mean latency, no reply →
"timeout"; `PermissionError` → "permission"; `socket.error` containing
"No route to host" → "no_route", containing "Permission denied" →
"permission", otherwise → "unknown". The outer `except Exception`
re-classifying by message is unreachable for the modelled events. -/
def ping_host (env : PingEnv) : PingResult :=
  match env.resolved with
  | none =>
      { success := false, latency := 0,
        error := some "Name or service not known", errorType := some "unknown" }
  | some _ =>
      if env.isWindows = false ∧ env.euid ≠ 0 then
        { success := false, latency := 0,
          error := some "Root privileges required for raw socket on Unix systems",
          errorType := some "permission" }
      else
        match env.icmp with
        | .exchanges perPing =>
            let latencies := perPing.filterMap id
            if 0 < latencies.length then
              { success := true, latency := latencies.sum / (latencies.length : ℚ),
                error := none, errorType := none }
            else
              { success := false, latency := 0,
                error := some "Request timed out", errorType := some "timeout" }
        | .permissionError m =>
            { success := false, latency := 0,
              error := some m, errorType := some "permission" }
        | .noRouteSockError =>
            { success := false, latency := 0,
              error := some "No route to host", errorType := some "no_route" }
        | .permDeniedSockError =>
            { success := false, latency := 0,
              error := some "Permission denied", errorType := some "permission" }
        | .otherSockError m =>
            { success := false, latency := 0,
              error := some m, errorType := some "unknown" }

/-- One entry of `self.current_hops` in `EndlessPingMonitor`
(src/core/network.py): identity fields plus the incrementally updated
counters. `min` starts at float infinity, modelled as `⊤ : WithTop ℚ`;
`jitterSq` again stands for the square of the stored jitter. -/
structure HopEntry where
  hop : Nat
  ip : String
  hostname : String
  count : Nat
  current : ℚ
  min : WithTop ℚ
  max : ℚ
  avg : ℚ
  loss : ℚ
  jitterSq : ℚ
  errorType : Option String
deriving DecidableEq

/-- The hop dict literal built in `_perform_initial_traceroute`. -/
def initHopEntry (hopNum : Nat) (ip hostname : String) : HopEntry :=
  { hop := hopNum, ip := ip, hostname := hostname, count := 0, current := 0,
    min := ⊤, max := 0, avg := 0, loss := 0, jitterSq := 0, errorType := none }

/-- Append on a collections.deque whose maxlen is `cap`: adds on the
right and, when the length would exceed `cap`, evicts from the left. -/
def appendBounded {α : Type} (cap : Nat) (hist : List α) (p : α) : List α :=
  let h := hist ++ [p]
  if cap < h.length then h.drop (h.length - cap) else h

/-- The worker body `ping_and_process` in `_ping_all_hops`
(src/core/network.py): bumps `count`, then on success updates `current`,
`min`, `max` and appends a success entry to the hop's bounded history;
on failure zeroes `current`, records the error type and appends a
failure entry. The dict lookup of error_type with default "unknown"
returns the stored value because `ping_host` always populates the key,
so the model reads `result.errorType` directly (wrapped with the same
default where the hop field is set). -/
def ping_and_process (cap : Nat) (timestamp : Nat) (result : PingResult)
    (hop : HopEntry) (hist : List DataPoint) : HopEntry × List DataPoint :=
  let hop := { hop with count := hop.count + 1 }
  if result.success then
    ({ hop with current := result.latency,
                min := min hop.min (result.latency : WithTop ℚ),
                max := max hop.max result.latency,
                errorType := none },
     appendBounded cap hist
       { timestamp := timestamp, latency := some result.latency,
         success := true, errorType := none })
  else
    ({ hop with current := 0, errorType := some (result.errorType.getD "unknown") },
     appendBounded cap hist
       { timestamp := timestamp, latency := none,
         success := false, errorType := result.errorType })

/-- A sequence of monitoring ticks for one hop: each element is the
timestamp taken in `_ping_all_hops` paired with the `ping_host` result
for this hop, folded through `ping_and_process`. -/
def runPings (cap : Nat) (results : List (Nat × PingResult))
    (hop : HopEntry) (hist : List DataPoint) : HopEntry × List DataPoint :=
  results.foldl (fun s tr => ping_and_process cap tr.1 tr.2 s.1 s.2) (hop, hist)

/-- `_update_statistics` for one hop (src/core/network.py): when the
hop's history is non-empty, recompute `avg`, `loss` and jitter from it
via `calculate_statistics`; `count`, `current`, `min`, `max` are left
untouched. -/
def update_statistics (hop : HopEntry) (hist : List DataPoint) : HopEntry :=
  if hist.isEmpty then hop
  else
    let stats := calculate_statistics hist
    { hop with avg := stats.avg, loss := stats.loss, jitterSq := stats.jitterSq }

/-- One parsed traceroute entry as produced by `perform_traceroute`
(src/utils/traceroute.py): the ip field is the literal string `"*"` for
a TTL at which no responder answered. -/
structure TraceHop where
  ip : String
  hostname : String
deriving DecidableEq

/-- The hop-list construction loop of `_perform_initial_traceroute`
(src/core/network.py): it enumerates the traceroute result from 1 and
skips every entry whose ip equals the timeout marker, leaving the
counter advanced. `resolve` stands for the best-effort reverse-DNS call
used when the parsed hostname is empty. -/
def buildHopsFrom (resolve : String → String) : Nat → List TraceHop → List HopEntry
  | _, [] => []
  | n, h :: rest =>
      if h.ip = "*" then buildHopsFrom resolve (n + 1) rest
      else
        initHopEntry n h.ip (if h.hostname = "" then resolve h.ip else h.hostname)
          :: buildHopsFrom resolve (n + 1) rest

/-- `_perform_initial_traceroute`'s hop list: enumeration starts at 1. -/
def buildHops (resolve : String → String) (trace : List TraceHop) : List HopEntry :=
  buildHopsFrom resolve 1 trace

/-- The mutable state of `EndlessPingMonitor` (src/core/network.py) that
the lifecycle operations touch; `history` is the per-hop dict of bounded
deques, modelled as an association list. -/
structure EndlessPingMonitorState where
  target : String
  interval : ℚ
  running : Bool
  current_hops : List HopEntry
  history : List (Nat × List DataPoint)
deriving DecidableEq

/-- `EndlessPingMonitor.__init__` field values. -/
def EndlessPingMonitorState.init : EndlessPingMonitorState :=
  { target := "", interval := 5 / 2, running := false,
    current_hops := [], history := [] }

/-- `EndlessPingMonitor.set_target`: stores the target and
unconditionally resets `current_hops` and `history` — there is no
comparison with the previous target. -/
def EndlessPingMonitorState.set_target (s : EndlessPingMonitorState)
    (target : String) : EndlessPingMonitorState :=
  { s with target := target, current_hops := [], history := [] }

/-- `EndlessPingMonitor.set_interval`: stores the value as given, with
no clamping and no validation. -/
def EndlessPingMonitorState.set_interval (s : EndlessPingMonitorState)
    (interval_seconds : ℚ) : EndlessPingMonitorState :=
  { s with interval := interval_seconds }

/-- `EndlessPingMonitor.get_current_data`: a copy of the hop list. -/
def EndlessPingMonitorState.get_current_data (s : EndlessPingMonitorState) :
    List HopEntry :=
  s.current_hops

/-- The fields of the single-file `NetworkMonitor` (main.py) touched by
its setters. -/
structure NetworkMonitorState where
  target : String
  interval : ℚ
deriving DecidableEq

/-- `NetworkMonitor.set_target` (main.py): stores the target only; the
accumulated history lives in `StatisticsProcessor` and is not touched. -/
def NetworkMonitorState.set_target (s : NetworkMonitorState)
    (target : String) : NetworkMonitorState :=
  { s with target := target }

/-- `NetworkMonitor.set_interval` (main.py):
`max(1.0, min(interval, 10.0))`. -/
def NetworkMonitorState.set_interval (s : NetworkMonitorState)
    (interval : ℚ) : NetworkMonitorState :=
  { s with interval := max 1 (min interval 10) }

/-- The last `cap` elements of a list, in order. -/
def lastN {α : Type} (cap : Nat) (l : List α) : List α :=
  l.drop (l.length - cap)

theorem lastN_length {α : Type} (cap : Nat) (l : List α) :
    (lastN cap l).length = min cap l.length := by
  simp only [lastN, List.length_drop]
  omega

theorem lastN_of_le {α : Type} (cap : Nat) (l : List α) (h : l.length ≤ cap) :
    lastN cap l = l := by
  simp [lastN, Nat.sub_eq_zero_of_le h]

theorem appendBounded_eq_drop {α : Type} (cap : Nat) (h : List α) (p : α) :
    appendBounded cap h p = (h ++ [p]).drop (h.length + 1 - cap) := by
  simp only [appendBounded, List.length_append, List.length_singleton]
  by_cases hc : cap < h.length + 1
  · simp [hc]
  · have h0 : h.length + 1 - cap = 0 := by omega
    simp [hc, h0]

theorem appendBounded_length_le {α : Type} (cap : Nat) (h : List α) (p : α)
    (hh : h.length ≤ cap) : (appendBounded cap h p).length ≤ cap := by
  rw [appendBounded_eq_drop]
  simp only [List.length_drop, List.length_append, List.length_singleton]
  omega

theorem lastN_drop_append {α : Type} (cap k : Nat) (A ys : List α)
    (hk : k ≤ A.length) (hcap : k ≤ A.length - cap) :
    lastN cap (A.drop k ++ ys) = lastN cap (A ++ ys) := by
  rw [← List.drop_append_of_le_length hk]
  simp only [lastN, List.length_drop, List.drop_drop, List.length_append]
  congr 1
  omega

theorem foldl_appendBounded_eq_lastN {α : Type} (cap : Nat) (ys h : List α)
    (hh : h.length ≤ cap) :
    ys.foldl (appendBounded cap) h = lastN cap (h ++ ys) := by
  induction ys generalizing h with
  | nil => simpa using (lastN_of_le cap h hh).symm
  | cons y ys ih =>
      rw [List.foldl_cons, ih (appendBounded cap h y) (appendBounded_length_le cap h y hh)]
      rw [appendBounded_eq_drop]
      have hcons : h ++ y :: ys = (h ++ [y]) ++ ys := by simp
      rw [hcons]
      apply lastN_drop_append
      · simp only [List.length_append, List.length_singleton]; omega
      · simp only [List.length_append, List.length_singleton]; omega

theorem foldl_appendBounded_nil {α : Type} (cap : Nat) (ys : List α) :
    ys.foldl (appendBounded cap) [] = ys.drop (ys.length - cap) := by
  simpa [lastN] using foldl_appendBounded_eq_lastN cap ys [] (by simp)

/-- Modelled from the spec wording for jitter: the sample standard
deviation of the latencies among successful outcomes, written here in
its squared textbook form n·Σx² − (Σx)² over n(n−1), to be compared
with the squared value the code computes. -/
def stdevSqSpec (xs : List ℚ) : ℚ :=
  ((xs.length : ℚ) * (xs.map (fun x => x ^ 2)).sum - xs.sum ^ 2) /
    ((xs.length : ℚ) * ((xs.length : ℚ) - 1))

/-- The history entry `ping_and_process` appends for a given ping
result (the common shape of its two branches). -/
def outcomeOf (timestamp : Nat) (r : PingResult) : DataPoint :=
  if r.success then
    { timestamp := timestamp, latency := some r.latency,
      success := true, errorType := none }
  else
    { timestamp := timestamp, latency := none,
      success := false, errorType := r.errorType }

theorem successLatencies_append (l₁ l₂ : List DataPoint) :
    successLatencies (l₁ ++ l₂) = successLatencies l₁ ++ successLatencies l₂ := by
  simp [successLatencies, List.filterMap_append]

theorem successLatencies_length_le (l : List DataPoint) :
    (successLatencies l).length ≤ l.length :=
  List.length_filterMap_le _ _

theorem calculate_statistics_loss (dps : List DataPoint) :
    (calculate_statistics dps).loss =
      if dps.length = 0 then 0
      else 100 * (1 - ((successLatencies dps).length : ℚ) / (dps.length : ℚ)) := by
  simp only [calculate_statistics]
  split
  · rfl
  · ring

theorem loss_append_notCounted (dps : List DataPoint) (p : DataPoint)
    (hp : (if p.success then p.latency else none) = none) :
    (calculate_statistics dps).loss ≤ (calculate_statistics (dps ++ [p])).loss := by
  have hone : successLatencies [p] = [] := by
    simp [successLatencies, List.filterMap, hp]
  have hsl : successLatencies (dps ++ [p]) = successLatencies dps := by
    rw [successLatencies_append, hone, List.append_nil]
  rw [calculate_statistics_loss, calculate_statistics_loss, hsl]
  have hsn : (successLatencies dps).length ≤ dps.length := successLatencies_length_le dps
  have hlen : (dps ++ [p]).length = dps.length + 1 := by simp
  rw [hlen]
  by_cases hn : dps.length = 0
  · have hs0 : (successLatencies dps).length = 0 := by omega
    simp [hn, hs0]
  · have hn1 : dps.length + 1 ≠ 0 := by omega
    simp only [hn, hn1, if_false]
    have hq0 : (0 : ℚ) < (dps.length : ℚ) := by
      exact_mod_cast Nat.pos_of_ne_zero hn
    have hq1 : (0 : ℚ) < ((dps.length : ℚ) + 1) := by linarith
    have hkey : ((successLatencies dps).length : ℚ) / ((dps.length : ℚ) + 1)
        ≤ ((successLatencies dps).length : ℚ) / (dps.length : ℚ) := by
      rw [div_le_div_iff₀ hq1 hq0]
      have hs0 : (0 : ℚ) ≤ ((successLatencies dps).length : ℚ) := by positivity
      nlinarith
    push_cast
    push_cast at hkey
    nlinarith

theorem loss_append_success (dps : List DataPoint) (p : DataPoint) (v : ℚ)
    (hps : p.success = true) (hpl : p.latency = some v) :
    (calculate_statistics (dps ++ [p])).loss ≤ (calculate_statistics dps).loss := by
  have hone : successLatencies [p] = [v] := by
    simp [successLatencies, List.filterMap, hps, hpl]
  have hsl : successLatencies (dps ++ [p]) = successLatencies dps ++ [v] := by
    rw [successLatencies_append, hone]
  rw [calculate_statistics_loss, calculate_statistics_loss, hsl]
  have hsn : (successLatencies dps).length ≤ dps.length := successLatencies_length_le dps
  have hlen : (dps ++ [p]).length = dps.length + 1 := by simp
  rw [hlen]
  by_cases hn : dps.length = 0
  · have hs0 : (successLatencies dps).length = 0 := by omega
    simp [hn, hs0]
  · have hn1 : dps.length + 1 ≠ 0 := by omega
    simp only [hn, hn1, if_false, List.length_append, List.length_singleton]
    have hq0 : (0 : ℚ) < (dps.length : ℚ) := by
      exact_mod_cast Nat.pos_of_ne_zero hn
    have hq1 : (0 : ℚ) < ((dps.length : ℚ) + 1) := by linarith
    have hsq : ((successLatencies dps).length : ℚ) ≤ (dps.length : ℚ) := by
      exact_mod_cast hsn
    have hkey : ((successLatencies dps).length : ℚ) / (dps.length : ℚ)
        ≤ (((successLatencies dps).length : ℚ) + 1) / ((dps.length : ℚ) + 1) := by
      rw [div_le_div_iff₀ hq0 hq1]
      nlinarith
    push_cast
    push_cast at hkey
    nlinarith

theorem sum_map_sq_sub (xs : List ℚ) (c : ℚ) :
    (xs.map (fun x => (x - c) ^ 2)).sum
      = (xs.map (fun x => x ^ 2)).sum - 2 * c * xs.sum + (xs.length : ℚ) * c ^ 2 := by
  induction xs with
  | nil => simp
  | cons x xs ih =>
      simp only [List.map_cons, List.sum_cons, ih, List.length_cons]
      push_cast
      ring

theorem stdevSq_eq_spec (xs : List ℚ) (h2 : 2 ≤ xs.length) :
    stdevSq xs = stdevSqSpec xs := by
  have hn : (2 : ℚ) ≤ (xs.length : ℚ) := by exact_mod_cast h2
  have hn0 : (xs.length : ℚ) ≠ 0 := by linarith
  have hn1 : (xs.length : ℚ) - 1 ≠ 0 := by
    intro h
    have : (xs.length : ℚ) = 1 := by linarith
    linarith
  rw [stdevSq, stdevSqSpec, sum_map_sq_sub]
  field_simp
  ring

theorem stdevSq_pair (a : ℚ) : stdevSq [a, a] = 0 := by
  simp only [stdevSq, List.map_cons, List.map_nil, List.sum_cons, List.sum_nil,
    List.length_cons, List.length_nil]
  norm_num

theorem ping_and_process_count (cap t : Nat) (r : PingResult)
    (hop : HopEntry) (hist : List DataPoint) :
    (ping_and_process cap t r hop hist).1.count = hop.count + 1 := by
  by_cases h : r.success <;> simp [ping_and_process, h]

theorem ping_and_process_hist (cap t : Nat) (r : PingResult)
    (hop : HopEntry) (hist : List DataPoint) :
    (ping_and_process cap t r hop hist).2 = appendBounded cap hist (outcomeOf t r) := by
  by_cases h : r.success <;> simp [ping_and_process, outcomeOf, h]

theorem runPings_count (cap : Nat) (rs : List (Nat × PingResult))
    (hop : HopEntry) (hist : List DataPoint) :
    (runPings cap rs hop hist).1.count = hop.count + rs.length := by
  induction rs generalizing hop hist with
  | nil => simp [runPings]
  | cons r rs ih =>
      simp only [runPings, List.foldl_cons] at ih ⊢
      rw [ih]
      rw [ping_and_process_count]
      simp only [List.length_cons]
      omega

theorem runPings_hist (cap : Nat) (rs : List (Nat × PingResult))
    (hop : HopEntry) (hist : List DataPoint) :
    (runPings cap rs hop hist).2
      = (rs.map (fun tr => outcomeOf tr.1 tr.2)).foldl (appendBounded cap) hist := by
  induction rs generalizing hop hist with
  | nil => simp [runPings]
  | cons r rs ih =>
      simp only [runPings, List.foldl_cons, List.map_cons] at ih ⊢
      rw [ih, ping_and_process_hist]

theorem runPings_min_max_of_fail (cap : Nat) (rs : List (Nat × PingResult))
    (hop : HopEntry) (hist : List DataPoint)
    (h : ∀ r ∈ rs, r.2.success = false) :
    (runPings cap rs hop hist).1.min = hop.min
      ∧ (runPings cap rs hop hist).1.max = hop.max := by
  induction rs generalizing hop hist with
  | nil => simp [runPings]
  | cons r rs ih =>
      have hr : r.2.success = false := h r (List.mem_cons_self r rs)
      have hrest : ∀ q ∈ rs, q.2.success = false := fun q hq => h q (List.mem_cons_of_mem r hq)
      simp only [runPings, List.foldl_cons] at ih ⊢
      have hmin : (ping_and_process cap r.1 r.2 hop hist).1.min = hop.min := by
        simp [ping_and_process, hr]
      have hmax : (ping_and_process cap r.1 r.2 hop hist).1.max = hop.max := by
        simp [ping_and_process, hr]
      rcases ih (ping_and_process cap r.1 r.2 hop hist).1
          (ping_and_process cap r.1 r.2 hop hist).2 hrest with ⟨h1, h2⟩
      exact ⟨h1.trans hmin, h2.trans hmax⟩

theorem mem_buildHopsFrom (resolve : String → String) :
    ∀ (t : List TraceHop) (n : Nat) (e : HopEntry),
      e ∈ buildHopsFrom resolve n t →
        n ≤ e.hop ∧ e.hop < n + t.length ∧
          ∃ th, t[e.hop - n]? = some th ∧ th.ip = e.ip ∧ th.ip ≠ "*" := by
  intro t
  induction t with
  | nil => intro n e he; simp [buildHopsFrom] at he
  | cons h rest ih =>
      intro n e he
      by_cases hip : h.ip = "*"
      · rw [buildHopsFrom, if_pos hip] at he
        rcases ih (n + 1) e he with ⟨h1, h2, th, hth, hips, hstar⟩
        refine ⟨by omega, by simp only [List.length_cons]; omega, th, ?_, hips, hstar⟩
        have hidx : e.hop - n = (e.hop - (n + 1)) + 1 := by omega
        rw [hidx, List.getElem?_cons_succ]
        exact hth
      · rw [buildHopsFrom, if_neg hip] at he
        rcases List.mem_cons.mp he with heq | he
        · subst heq
          refine ⟨le_refl _, by simp only [initHopEntry, List.length_cons]; omega, h, ?_, rfl, hip⟩
          simp [initHopEntry]
        · rcases ih (n + 1) e he with ⟨h1, h2, th, hth, hips, hstar⟩
          refine ⟨by omega, by simp only [List.length_cons]; omega, th, ?_, hips, hstar⟩
          have hidx : e.hop - n = (e.hop - (n + 1)) + 1 := by omega
          rw [hidx, List.getElem?_cons_succ]
          exact hth

theorem pairwise_buildHopsFrom (resolve : String → String) :
    ∀ (t : List TraceHop) (n : Nat),
      (buildHopsFrom resolve n t).Pairwise (fun a b => a.hop < b.hop) := by
  intro t
  induction t with
  | nil => intro n; simp [buildHopsFrom]
  | cons h rest ih =>
      intro n
      by_cases hip : h.ip = "*"
      · rw [buildHopsFrom, if_pos hip]; exact ih (n + 1)
      · rw [buildHopsFrom, if_neg hip]
        refine List.Pairwise.cons ?_ (ih (n + 1))
        intro b hb
        have := (mem_buildHopsFrom resolve rest (n + 1) b hb).1
        simp only [initHopEntry]
        omega

theorem length_buildHopsFrom (resolve : String → String) :
    ∀ (t : List TraceHop) (n : Nat),
      (buildHopsFrom resolve n t).length
        = (t.filter (fun th => th.ip ≠ "*")).length := by
  intro t
  induction t with
  | nil => intro n; simp [buildHopsFrom]
  | cons h rest ih =>
      intro n
      by_cases hip : h.ip = "*"
      · rw [buildHopsFrom, if_pos hip]
        simp [List.filter_cons, hip, ih (n + 1)]
      · rw [buildHopsFrom, if_neg hip]
        simp [List.filter_cons, hip, ih (n + 1)]

/-- Claim C1, counterexample. The claim says no infinity sentinel for
min or max is ever visible in a stats snapshot of a hop that has never
succeeded. In the code a hop whose every probe failed keeps its initial
min of float infinity (⊤ here): after one failed ping processed by
`ping_and_process` and `_update_statistics`, the hop entry exposed by
`get_current_data` still has min = ⊤, which differs from 0. -/
theorem claim1_counterexample :
    (update_statistics
        (ping_and_process 86400 0
          { success := false, latency := 0,
            error := some "Request timed out", errorType := some "timeout" }
          (initHopEntry 1 "10.0.0.1" "") []).1
        (ping_and_process 86400 0
          { success := false, latency := 0,
            error := some "Request timed out", errorType := some "timeout" }
          (initHopEntry 1 "10.0.0.1" "") []).2).min = ⊤
    ∧ (⊤ : WithTop ℚ) ≠ ((0 : ℚ) : WithTop ℚ) := by
  constructor
  · rfl
  · decide

/-- Claim C1, amended. `calculate_statistics` on a non-empty history
with zero successes yields avg = 0, jitter = 0, loss = 100, and on an
empty history loss = 0; but min and max are not part of the computed
statistics: on a hop that has never succeeded the hop entry keeps
min = float infinity (⊤) and max = 0, and that sentinel is visible in
snapshots. -/
theorem claim1_amended :
    (∀ dps : List DataPoint, dps ≠ [] → (∀ p ∈ dps, p.success = false) →
        calculate_statistics dps = { avg := 0, loss := 100, jitterSq := 0 })
    ∧ calculate_statistics [] = { avg := 0, loss := 0, jitterSq := 0 }
    ∧ (∀ (cap : Nat) (rs : List (Nat × PingResult)) (n : Nat) (ip hn : String),
        (∀ r ∈ rs, r.2.success = false) →
          (runPings cap rs (initHopEntry n ip hn) []).1.min = ⊤
            ∧ (runPings cap rs (initHopEntry n ip hn) []).1.max = 0) := by
  refine ⟨fun dps hne h => calculate_statistics_no_success dps h hne,
    calculate_statistics_nil, fun cap rs n ip hn h => ?_⟩
  have hmm := runPings_min_max_of_fail cap rs (initHopEntry n ip hn) [] h
  simpa [initHopEntry] using hmm

/-- Claim C1, witness for the amended theorem at concrete inputs. -/
theorem claim1_witness :
    calculate_statistics
        [{ timestamp := 0, latency := none, success := false, errorType := some "timeout" }]
      = { avg := 0, loss := 100, jitterSq := 0 }
    ∧ (runPings 3
          [(0, { success := false, latency := 0,
                 error := some "Request timed out", errorType := some "timeout" })]
          (initHopEntry 1 "10.0.0.1" "") []).1.min = ⊤ := by
  constructor
  · exact claim1_amended.1
      [{ timestamp := 0, latency := none, success := false, errorType := some "timeout" }]
      (by decide) (by decide)
  · exact (claim1_amended.2.2 3
      [(0, { success := false, latency := 0,
             error := some "Request timed out", errorType := some "timeout" })]
      1 "10.0.0.1" "" (by decide)).1

/-- Claim C2, counterexample. The claim says every field of a hop
snapshot, in particular count, is a pure function of the outcomes
currently retained in the bounded history plus the hop identity. With
capacity 1, one successful tick and two identical successful ticks
leave identical retained histories on the same hop identity, yet
count = 1 in the first case and count = 2 in the second: count tracks
all attempts, not the retained entries. -/
theorem claim2_counterexample :
    (runPings 1 [(5, { success := true, latency := 10, error := none, errorType := none })]
        (initHopEntry 1 "10.0.0.1" "") []).2
      = (runPings 1
          [(5, { success := true, latency := 10, error := none, errorType := none }),
           (5, { success := true, latency := 10, error := none, errorType := none })]
          (initHopEntry 1 "10.0.0.1" "") []).2
    ∧ (runPings 1 [(5, { success := true, latency := 10, error := none, errorType := none })]
        (initHopEntry 1 "10.0.0.1" "") []).1.count = 1
    ∧ (runPings 1
          [(5, { success := true, latency := 10, error := none, errorType := none }),
           (5, { success := true, latency := 10, error := none, errorType := none })]
          (initHopEntry 1 "10.0.0.1" "") []).1.count = 2 := by
  decide

/-- Claim C2, amended. After any sequence of ticks, avg, loss and
jitter are recomputed by `_update_statistics` purely from the retained
history, but count equals the total number of attempts since discovery
(it can exceed the retained length, which is capped at min cap n). -/
theorem claim2_amended (cap : Nat) (rs : List (Nat × PingResult)) (hop : HopEntry) :
    (runPings cap rs hop []).1.count = hop.count + rs.length
    ∧ (runPings cap rs hop []).2.length = min cap rs.length
    ∧ ((runPings cap rs hop []).2 ≠ [] →
        update_statistics (runPings cap rs hop []).1 (runPings cap rs hop []).2
          = { (runPings cap rs hop []).1 with
                avg := (calculate_statistics (runPings cap rs hop []).2).avg,
                loss := (calculate_statistics (runPings cap rs hop []).2).loss,
                jitterSq := (calculate_statistics (runPings cap rs hop []).2).jitterSq }) := by
  refine ⟨runPings_count cap rs hop [], ?_, ?_⟩
  · rw [runPings_hist, foldl_appendBounded_nil]
    simp only [List.length_drop, List.length_map]
    omega
  · intro hne
    rw [update_statistics, if_neg]
    simpa [List.isEmpty_iff] using hne

/-- Claim C2, witness for the amended theorem at a concrete input. -/
theorem claim2_witness :
    update_statistics
        (runPings 1 [(5, { success := true, latency := 10, error := none, errorType := none })]
          (initHopEntry 1 "10.0.0.1" "") []).1
        (runPings 1 [(5, { success := true, latency := 10, error := none, errorType := none })]
          (initHopEntry 1 "10.0.0.1" "") []).2
      = { (runPings 1 [(5, { success := true, latency := 10, error := none, errorType := none })]
            (initHopEntry 1 "10.0.0.1" "") []).1 with
            avg := (calculate_statistics
              (runPings 1 [(5, { success := true, latency := 10, error := none, errorType := none })]
                (initHopEntry 1 "10.0.0.1" "") []).2).avg,
            loss := (calculate_statistics
              (runPings 1 [(5, { success := true, latency := 10, error := none, errorType := none })]
                (initHopEntry 1 "10.0.0.1" "") []).2).loss,
            jitterSq := (calculate_statistics
              (runPings 1 [(5, { success := true, latency := 10, error := none, errorType := none })]
                (initHopEntry 1 "10.0.0.1" "") []).2).jitterSq } :=
  (claim2_amended 1 [(5, { success := true, latency := 10, error := none, errorType := none })]
    (initHopEntry 1 "10.0.0.1" "")).2.2 (by decide)

/-- Claim C3. A hop history is a bounded deque of capacity cap: after
appending more than cap outcomes starting from the empty history, the
retained sequence is exactly the most recent cap appended outcomes in
arrival order (the final drop of the input) and has length exactly cap,
and at every intermediate point the length never exceeds cap. -/
theorem claim3_ring_buffer (cap : Nat) (ys : List DataPoint) :
    (cap < ys.length →
        ys.foldl (appendBounded cap) [] = ys.drop (ys.length - cap)
          ∧ (ys.foldl (appendBounded cap) []).length = cap)
    ∧ (∀ n : Nat, ((ys.take n).foldl (appendBounded cap) []).length ≤ cap) := by
  constructor
  · intro hc
    refine ⟨foldl_appendBounded_nil cap ys, ?_⟩
    rw [foldl_appendBounded_nil]
    simp only [List.length_drop]
    omega
  · intro n
    rw [foldl_appendBounded_nil]
    simp only [List.length_drop, List.length_take]
    omega

/-- Claim C3, witness at capacity 2 with three appended outcomes. -/
theorem claim3_witness :
    ([{ timestamp := 0, latency := some 1, success := true, errorType := none },
      { timestamp := 1, latency := some 2, success := true, errorType := none },
      { timestamp := 2, latency := none, success := false, errorType := some "timeout" }] :
        List DataPoint).foldl (appendBounded 2) []
      = [{ timestamp := 1, latency := some 2, success := true, errorType := none },
         { timestamp := 2, latency := none, success := false, errorType := some "timeout" }]
    ∧ (([{ timestamp := 0, latency := some 1, success := true, errorType := none },
         { timestamp := 1, latency := some 2, success := true, errorType := none },
         { timestamp := 2, latency := none, success := false, errorType := some "timeout" }] :
          List DataPoint).foldl (appendBounded 2) []).length = 2 := by
  have h := (claim3_ring_buffer 2
    [{ timestamp := 0, latency := some 1, success := true, errorType := none },
     { timestamp := 1, latency := some 2, success := true, errorType := none },
     { timestamp := 2, latency := none, success := false, errorType := some "timeout" }]).1
    (by decide)
  exact ⟨h.1, h.2⟩

/-- Claim C4, counterexample. The claim says SetInterval always clamps
to the range 1 to 10 and SetInterval of 0.1 results in 1.0. On
`EndlessPingMonitor.set_interval` the value is stored unchanged:
setting 0.1 stores 0.1, which is not 1 and lies below the claimed
range. -/
theorem claim4_counterexample :
    (EndlessPingMonitorState.init.set_interval (1 / 10)).interval = 1 / 10
    ∧ (EndlessPingMonitorState.init.set_interval (1 / 10)).interval ≠ 1
    ∧ ¬ (1 ≤ (EndlessPingMonitorState.init.set_interval (1 / 10)).interval) := by
  refine ⟨rfl, ?_, ?_⟩ <;>
    norm_num [EndlessPingMonitorState.set_interval, EndlessPingMonitorState.init]

/-- Claim C4, amended. The single-file `NetworkMonitor.set_interval`
clamps every input into the range 1 to 10 — in particular 0.1 becomes
1 and 50 becomes 10 — and never errors, while
`EndlessPingMonitor.set_interval` stores the given value unchanged,
with no clamping. -/
theorem claim4_amended :
    (∀ (s : NetworkMonitorState) (i : ℚ),
        1 ≤ (s.set_interval i).interval ∧ (s.set_interval i).interval ≤ 10)
    ∧ (∀ s : NetworkMonitorState, (s.set_interval (1 / 10)).interval = 1)
    ∧ (∀ s : NetworkMonitorState, (s.set_interval 50).interval = 10)
    ∧ (∀ (s : EndlessPingMonitorState) (i : ℚ), (s.set_interval i).interval = i) := by
  refine ⟨fun s i => ⟨le_max_left 1 _, max_le (by norm_num) (min_le_right i 10)⟩,
    fun s => ?_, fun s => ?_, fun s i => rfl⟩
  · show max 1 (min (1 / 10 : ℚ) 10) = 1
    norm_num
  · show max 1 (min (50 : ℚ) 10) = 10
    norm_num

/-- Claim C5, counterexample. The claim says SetTarget with a host
equal to the current target leaves the accumulated history and hop
list unchanged. `EndlessPingMonitor.set_target` resets both
unconditionally: on a state whose target is already the given host and
whose hop list and history are non-empty, they end up empty. -/
theorem claim5_counterexample :
    (({ target := "10.0.0.1", interval := 5 / 2, running := true,
        current_hops := [initHopEntry 1 "10.0.0.1" ""],
        history := [(1, [{ timestamp := 0, latency := some 10,
                           success := true, errorType := none }])] } :
        EndlessPingMonitorState).set_target "10.0.0.1").current_hops = []
    ∧ (({ target := "10.0.0.1", interval := 5 / 2, running := true,
          current_hops := [initHopEntry 1 "10.0.0.1" ""],
          history := [(1, [{ timestamp := 0, latency := some 10,
                             success := true, errorType := none }])] } :
          EndlessPingMonitorState).set_target "10.0.0.1").history = []
    ∧ ({ target := "10.0.0.1", interval := 5 / 2, running := true,
         current_hops := [initHopEntry 1 "10.0.0.1" ""],
         history := [(1, [{ timestamp := 0, latency := some 10,
                            success := true, errorType := none }])] } :
         EndlessPingMonitorState).current_hops ≠ [] := by
  decide

/-- Claim C5, amended. `EndlessPingMonitor.set_target` stores the
target and unconditionally clears the hop list and all per-hop history
— whether or not the host differs from the current target — so a
snapshot read immediately afterwards is empty; interval and running
state are untouched. -/
theorem claim5_amended (s : EndlessPingMonitorState) (t : String) :
    (s.set_target t).target = t
    ∧ (s.set_target t).current_hops = []
    ∧ (s.set_target t).history = []
    ∧ (s.set_target t).get_current_data = []
    ∧ (s.set_target t).interval = s.interval
    ∧ (s.set_target t).running = s.running :=
  ⟨rfl, rfl, rfl, rfl, rfl, rfl⟩

/-- Claim C6, counterexample. The claim says hop indices are contiguous
starting at 1 and a TTL with no responder is still recorded as a hop
occupying its position. On a traceroute result whose second entry timed
out, `_perform_initial_traceroute` records only two hops with indices 1
and 3: the timed-out TTL 2 is skipped entirely and the indices are not
contiguous. -/
theorem claim6_counterexample :
    (buildHops (fun _ => "")
        [{ ip := "10.0.0.1", hostname := "" }, { ip := "*", hostname := "" },
         { ip := "10.0.0.3", hostname := "" }]).map HopEntry.hop = [1, 3]
    ∧ (buildHops (fun _ => "")
        [{ ip := "10.0.0.1", hostname := "" }, { ip := "*", hostname := "" },
         { ip := "10.0.0.3", hostname := "" }]).length = 2 := by
  decide

/-- Claim C6, amended. The hop list built for a session keeps only the
TTL positions whose traceroute entry is not the timeout marker; each
recorded hop carries its 1-based position in the traceroute output (so
indices are strictly increasing but may have gaps), a hop entry exists
for exactly the non-timeout entries, and every recorded index points
back to a non-timeout traceroute entry with the same ip. -/
theorem claim6_amended (resolve : String → String) (tr : List TraceHop) :
    (buildHops resolve tr).Pairwise (fun a b => a.hop < b.hop)
    ∧ (buildHops resolve tr).length
        = (tr.filter (fun th => th.ip ≠ "*")).length
    ∧ ∀ e ∈ buildHops resolve tr,
        1 ≤ e.hop ∧ e.hop ≤ tr.length
          ∧ ∃ th, tr[e.hop - 1]? = some th ∧ th.ip = e.ip ∧ th.ip ≠ "*" := by
  refine ⟨pairwise_buildHopsFrom resolve tr 1,
    length_buildHopsFrom resolve tr 1, fun e he => ?_⟩
  rcases mem_buildHopsFrom resolve tr 1 e he with ⟨h1, h2, th, hth, hips, hstar⟩
  exact ⟨h1, by omega, th, hth, hips, hstar⟩

/-- Claim C6, witness for the amended theorem: the hop recorded with
index 3 in the counterexample trace points back to the third traceroute
entry. -/
theorem claim6_witness :
    1 ≤ (initHopEntry 3 "10.0.0.3" "").hop
    ∧ (initHopEntry 3 "10.0.0.3" "").hop
        ≤ ([{ ip := "10.0.0.1", hostname := "" }, { ip := "*", hostname := "" },
            { ip := "10.0.0.3", hostname := "" }] : List TraceHop).length
    ∧ ∃ th,
        ([{ ip := "10.0.0.1", hostname := "" }, { ip := "*", hostname := "" },
          { ip := "10.0.0.3", hostname := "" }] :
            List TraceHop)[(initHopEntry 3 "10.0.0.3" "").hop - 1]? = some th
          ∧ th.ip = (initHopEntry 3 "10.0.0.3" "").ip ∧ th.ip ≠ "*" :=
  (claim6_amended (fun _ => "")
    [{ ip := "10.0.0.1", hostname := "" }, { ip := "*", hostname := "" },
     { ip := "10.0.0.3", hostname := "" }]).2.2
    (initHopEntry 3 "10.0.0.3" "") (by decide)

/-- Claim C7, counterexample. The claim says a failed name lookup
produces an error kind NameResolution distinct from Unknown. In
`ping_host` a gaierror from gethostbyname is classified with
error_type "unknown" — exactly the same kind a generic socket error
receives — so no distinct name-resolution kind exists. -/
theorem claim7_counterexample :
    (ping_host { resolved := none, isWindows := false, euid := 0,
                 icmp := .exchanges [] }).success = false
    ∧ (ping_host { resolved := none, isWindows := false, euid := 0,
                   icmp := .exchanges [] }).errorType = some "unknown"
    ∧ (ping_host { resolved := none, isWindows := false, euid := 0,
                   icmp := .exchanges [] }).errorType
        = (ping_host { resolved := some "1.2.3.4", isWindows := true, euid := 0,
                       icmp := .otherSockError "boom" }).errorType := by
  decide

/-- Claim C7, amended. A probe whose target fails name lookup returns a
failed outcome with the message "Name or service not known" and
error_type "unknown" — not a distinct NameResolution kind — and this
"unknown" classification is what `ping_and_process` records into the
hop history and the hop entry. -/
theorem claim7_amended (env : PingEnv) (h : env.resolved = none) :
    ping_host env
      = { success := false, latency := 0,
          error := some "Name or service not known", errorType := some "unknown" }
    ∧ ∀ (cap t : Nat) (hop : HopEntry) (hist : List DataPoint),
        (ping_and_process cap t (ping_host env) hop hist).2
          = appendBounded cap hist
              { timestamp := t, latency := none,
                success := false, errorType := some "unknown" }
          ∧ (ping_and_process cap t (ping_host env) hop hist).1.errorType
              = some "unknown" := by
  obtain ⟨res, w, u, ic⟩ := env
  cases h
  refine ⟨rfl, fun cap t hop hist => ⟨?_, ?_⟩⟩
  · simp [ping_host, ping_and_process]
  · simp [ping_host, ping_and_process]

/-- Claim C7, witness for the amended theorem at a concrete
environment. -/
theorem claim7_witness :
    ping_host { resolved := none, isWindows := false, euid := 1000,
                icmp := .exchanges [some 3] }
      = { success := false, latency := 0,
          error := some "Name or service not known", errorType := some "unknown" }
    ∧ (ping_and_process 86400 7
        (ping_host { resolved := none, isWindows := false, euid := 1000,
                     icmp := .exchanges [some 3] })
        (initHopEntry 1 "example.invalid" "") []).1.errorType = some "unknown" :=
  ⟨(claim7_amended { resolved := none, isWindows := false, euid := 1000, icmp := .exchanges [some 3] } rfl).1,
   ((claim7_amended { resolved := none, isWindows := false, euid := 1000, icmp := .exchanges [some 3] } rfl).2
      86400 7 (initHopEntry 1 "example.invalid" "") []).2⟩

/-- Claim C8. The computed loss equals 100 × (1 − successes/count),
with value 0 when count = 0, and is monotone under extension: appending
a failed outcome never decreases it and appending a successful outcome
(which per the data model carries a latency) never increases it. -/
theorem claim8_loss (dps : List DataPoint) :
    ((calculate_statistics dps).loss =
        if dps.length = 0 then 0
        else 100 * (1 - ((successLatencies dps).length : ℚ) / (dps.length : ℚ)))
    ∧ (∀ p : DataPoint, p.success = false →
        (calculate_statistics dps).loss ≤ (calculate_statistics (dps ++ [p])).loss)
    ∧ (∀ (p : DataPoint) (v : ℚ), p.success = true → p.latency = some v →
        (calculate_statistics (dps ++ [p])).loss ≤ (calculate_statistics dps).loss) := by
  refine ⟨calculate_statistics_loss dps, fun p hp => ?_, fun p v hs hl =>
    loss_append_success dps p v hs hl⟩
  exact loss_append_notCounted dps p (by simp [hp])

/-- Claim C8, witness: loss does not decrease when a failure is
appended to a one-success history and does not increase when a success
is appended. -/
theorem claim8_witness :
    (calculate_statistics
        [{ timestamp := 0, latency := some 10, success := true, errorType := none }]).loss
      ≤ (calculate_statistics
          ([{ timestamp := 0, latency := some 10, success := true, errorType := none }] ++
           [{ timestamp := 1, latency := none, success := false, errorType := some "timeout" }])).loss
    ∧ (calculate_statistics
        ([{ timestamp := 0, latency := some 10, success := true, errorType := none }] ++
         [{ timestamp := 1, latency := some 12, success := true, errorType := none }])).loss
      ≤ (calculate_statistics
          [{ timestamp := 0, latency := some 10, success := true, errorType := none }]).loss :=
  ⟨(claim8_loss [{ timestamp := 0, latency := some 10, success := true, errorType := none }]).2.1
      { timestamp := 1, latency := none, success := false, errorType := some "timeout" } rfl,
   (claim8_loss [{ timestamp := 0, latency := some 10, success := true, errorType := none }]).2.2
      { timestamp := 1, latency := some 12, success := true, errorType := none } 12 rfl rfl⟩

/-- Claim C9. The computed jitter is the sample standard deviation of
the latencies among successful outcomes when there are at least two
such successes, and 0 when there are fewer than two — in particular 0
for zero successes, 0 for exactly one success (computed without
raising) and 0 for two successes with equal latencies. Stated on the
squares: the code returns the square root of `jitterSq`, which is 0
exactly when `jitterSq` is, and for at least two successes `jitterSq`
coincides with the spec-side sample variance `stdevSqSpec`. -/
theorem claim9_jitter (dps : List DataPoint) :
    ((successLatencies dps).length < 2 → (calculate_statistics dps).jitterSq = 0)
    ∧ (2 ≤ (successLatencies dps).length →
        (calculate_statistics dps).jitterSq = stdevSqSpec (successLatencies dps))
    ∧ (∀ a : ℚ, successLatencies dps = [a, a] →
        (calculate_statistics dps).jitterSq = 0) := by
  refine ⟨fun h => ?_, fun h => ?_, fun a ha => ?_⟩
  · have h1 : ¬ (1 < (successLatencies dps).length) := by omega
    simp [calculate_statistics, h1]
  · have h1 : 1 < (successLatencies dps).length := by omega
    simp [calculate_statistics, h1, stdevSq_eq_spec _ h]
  · have h1 : 1 < (successLatencies dps).length := by rw [ha]; simp
    simp [calculate_statistics, h1, ha, stdevSq_pair]

/-- Claim C9, witness: jitter is 0 with a single success, 0 with two
equal successes, and matches the spec-side variance with two distinct
successes. -/
theorem claim9_witness :
    (calculate_statistics
        [{ timestamp := 0, latency := some 10, success := true, errorType := none }]).jitterSq = 0
    ∧ (calculate_statistics
        [{ timestamp := 0, latency := some 7, success := true, errorType := none },
         { timestamp := 1, latency := some 7, success := true, errorType := none }]).jitterSq = 0
    ∧ (calculate_statistics
        [{ timestamp := 0, latency := some 7, success := true, errorType := none },
         { timestamp := 1, latency := some 9, success := true, errorType := none }]).jitterSq
      = stdevSqSpec (successLatencies
          [{ timestamp := 0, latency := some 7, success := true, errorType := none },
           { timestamp := 1, latency := some 9, success := true, errorType := none }]) :=
  ⟨(claim9_jitter
      [{ timestamp := 0, latency := some 10, success := true, errorType := none }]).1
      (by decide),
   (claim9_jitter
      [{ timestamp := 0, latency := some 7, success := true, errorType := none },
       { timestamp := 1, latency := some 7, success := true, errorType := none }]).2.2 7
      (by decide),
   (claim9_jitter
      [{ timestamp := 0, latency := some 7, success := true, errorType := none },
       { timestamp := 1, latency := some 9, success := true, errorType := none }]).2.1
      (by decide)⟩

/-- Claim C10. `calculate_statistics` is total by construction in this
model (it is a Lean function returning avg, loss and jitter for every
input list), and the degenerate entry with success true but latency
None is excluded from the latency aggregates while counting toward
loss exactly like a failure: appending it produces the same statistics
as appending a failed outcome, leaves avg and jitter unchanged, and
never decreases loss. -/
theorem claim10_degenerate (dps : List DataPoint) (t₁ t₂ : Nat)
    (e₁ e₂ : Option String) :
    calculate_statistics
        (dps ++ [{ timestamp := t₁, latency := none, success := true, errorType := e₁ }])
      = calculate_statistics
          (dps ++ [{ timestamp := t₂, latency := none, success := false, errorType := e₂ }])
    ∧ (calculate_statistics
        (dps ++ [{ timestamp := t₁, latency := none, success := true, errorType := e₁ }])).avg
      = (calculate_statistics dps).avg
    ∧ (calculate_statistics
        (dps ++ [{ timestamp := t₁, latency := none, success := true, errorType := e₁ }])).jitterSq
      = (calculate_statistics dps).jitterSq
    ∧ (calculate_statistics dps).loss
      ≤ (calculate_statistics
          (dps ++ [{ timestamp := t₁, latency := none, success := true, errorType := e₁ }])).loss := by
  have h1 : successLatencies
      (dps ++ [{ timestamp := t₁, latency := none, success := true, errorType := e₁ }])
      = successLatencies dps := by
    rw [successLatencies_append]
    simp [successLatencies]
  have h2 : successLatencies
      (dps ++ [{ timestamp := t₂, latency := none, success := false, errorType := e₂ }])
      = successLatencies dps := by
    rw [successLatencies_append]
    simp [successLatencies]
  refine ⟨?_, ?_, ?_, ?_⟩
  · simp [calculate_statistics, h1, h2]
  · simp [calculate_statistics, h1]
  · simp [calculate_statistics, h1]
  · exact loss_append_notCounted dps
      { timestamp := t₁, latency := none, success := true, errorType := e₁ } (by simp)

end EndlessPing
